import Mathlib

/-!
Verification development for the skincare recommendation agent
(src/agent.ts and the Express entry point).  The data model and the
operations are embedded shallowly: the routing function, the tool
schema and handler defaults, the prompt construction, the JSON-parse
ordering and the thread-id generation are translated from the source;
the AGENT/TOOLS loop, the tool-execution node and the checkpoint store
are executed by external libraries (LangGraph, MongoDBSaver) whose code
is not part of this repository, so those parts are modelled from the
specification, as marked in their doc comments.
-/

/-- A tool-call request issued by the model: name, correlation id and a
serialized argument payload (src/agent.ts: `tool_calls` on `AIMessage`). -/
structure ToolCall where
  id : String
  name : String
  args : String
deriving Repr, DecidableEq

/-- Messages of a conversation: the tagged union of system, user (human),
assistant (AI, possibly carrying tool calls) and tool-result messages,
mirroring `SystemMessage` / `HumanMessage` / `AIMessage` / tool messages from
src/agent.ts. -/
inductive Message where
  | system (content : String)
  | user (content : String)
  | assistant (content : String) (tool_calls : List ToolCall)
  | toolResult (callId : String) (content : String)
deriving Repr, DecidableEq

/-- The `content` field every message variant carries. -/
def Message.content : Message → String
  | Message.system c => c
  | Message.user c => c
  | Message.assistant c _ => c
  | Message.toolResult _ c => c

/-- An assistant reply from the conversational model: text content plus a
(possibly empty) list of tool-call requests. -/
structure AssistantReply where
  content : String
  tool_calls : List ToolCall
deriving Repr, DecidableEq

/-- `finalState.messages[finalState.messages.length - 1].content`
(src/agent.ts line 227): the content of the last message, empty for an
empty history. -/
def lastContent (msgs : List Message) : String :=
  match msgs.getLast? with
  | some m => m.content
  | none => ""

/-- The routing function of the graph (src/agent.ts lines 158-166): if the
last message carries a non-empty `tool_calls` list, route to "tools",
otherwise to "__end__".  A non-assistant last message has no `tool_calls`
(the optional-chaining access is undefined), hence routes to "__end__". -/
def shouldContinue (msgs : List Message) : String :=
  match msgs.getLast? with
  | some (Message.assistant _ tcs) => if tcs.length ≠ 0 then "tools" else "__end__"
  | _ => "__end__"

/-- The reducer of the `messages` channel of the graph state
(src/agent.ts line 40): `(x, y) => x.concat(y)`, a pure append. -/
def messagesReducer (x y : List Message) : List Message := x ++ y

/-- Modelled from the spec: the Tool Registry and Invoker (spec section 4.3);
the `tool` wrapper validating the payload against the declared schema before
running the handler is library code (`@langchain/core/tools`) not in this
repository.  On validation failure there is no recovery path: the failure
propagates as a fatal error and no tool result is produced. -/
def invokeToolChecked (validate : String → Bool) (handler : String → Except Unit String)
    (payload : String) : Except Unit String :=
  if validate payload then handler payload else Except.error ()

/-- Modelled from the spec: the TOOLS turn of the Turn Executor (spec
section 4.2); the `ToolNode` executing it is library code
(`@langchain/langgraph/prebuilt`, src/agent.ts line 85) not in this
repository.  One tool-result message per request, in request order, matched
by request identifier; a failing tool call aborts the whole turn with no
partial result. -/
def execToolsE (execTool : ToolCall → Except Unit String) :
    List ToolCall → Except Unit (List Message)
  | [] => Except.ok []
  | tc :: rest =>
    match execTool tc with
    | Except.error e => Except.error e
    | Except.ok s =>
      match execToolsE execTool rest with
      | Except.error e => Except.error e
      | Except.ok ms => Except.ok (Message.toolResult tc.id s :: ms)

/-- Outcome of a run of the graph: reached END with a final history, hit the
recursion limit, or aborted on a failed tool call. -/
inductive ExecResult where
  | done (history : List Message) (agentCalls : Nat)
  | recursionLimit (agentCalls : Nat)
  | toolError (agentCalls : Nat)
deriving Repr, DecidableEq

/-- The number of AGENT invocations a run performed. -/
def agentCallsOf : ExecResult → Nat
  | ExecResult.done _ n => n
  | ExecResult.recursionLimit n => n
  | ExecResult.toolError n => n

/-- Modelled from the spec: the AGENT/TOOLS loop of the Turn Executor (spec
section 4.2).  The loop itself is executed by the external LangGraph runtime
(`workflow.compile` / `app.invoke`, src/agent.ts lines 208-225), which is not
part of this repository; the graph wiring (start → agent, agent →
`shouldContinue`, tools → agent, src/agent.ts lines 208-213), the routing
function `shouldContinue` and the bound 15 (`recursionLimit: 15`, line 224)
are taken from the source.  `fuel` is the number of AGENT attempts still
permitted; when it is exhausted before END the run aborts with
RecursionLimitExceeded.  `modelF` is the conversational-model oracle,
`execTool` the tool-handler oracle. -/
def runFrom (modelF : List Message → AssistantReply)
    (execTool : ToolCall → Except Unit String) :
    Nat → List Message → Nat → ExecResult
  | 0, _, a => ExecResult.recursionLimit a
  | fuel + 1, history, a =>
    let reply := modelF history
    let h1 := history ++ [Message.assistant reply.content reply.tool_calls]
    if shouldContinue h1 = "tools" then
      match execToolsE execTool reply.tool_calls with
      | Except.error _ => ExecResult.toolError (a + 1)
      | Except.ok tms => runFrom modelF execTool fuel (h1 ++ tms) (a + 1)
    else ExecResult.done h1 (a + 1)

/-- First fixed segment of the system prompt template of `callModel`
(src/agent.ts lines 170-194), up to the `user_responses` placeholder. -/
def promptSeg1 : String :=
  "You are an AI Skincare Expert specializing in providing personalized skincare recommendations. Your task is to analyze both the user\x27s questionnaire responses and image analysis (if available) to provide tailored product recommendations.\n\nCurrent Context:\n- User Questionnaire: "

/-- Segment of the prompt template between the `user_responses` and
`image_analysis` placeholders. -/
def promptSeg2 : String := "\n- Image Analysis: "

/-- Segment of the prompt template between the `image_analysis` and
`tool_names` placeholders. -/
def promptSeg3 : String :=
  "\n\nBased on this information:\n1. Analyze both the questionnaire responses and image analysis\n2. Identify the key skincare needs and concerns\n3. Use the product lookup tool to find suitable products\n4. Provide a comprehensive recommendation with explanation\n\nFormat your response as follows:\n1. Brief analysis of the user\x27s skin condition and needs\n2. Product recommendations with explanations for each\n3. Usage instructions and any additional advice\n\nYou have access to the following tools: "

/-- Segment of the prompt template between the `tool_names` and `time`
placeholders. -/
def promptSeg4 : String := "\nCurrent time: "

/-- `imageAnalysis || "No image analysis available"` (src/agent.ts line 198):
JavaScript `||` falls back on any falsy value, so both a missing analysis and
an empty-string analysis yield the placeholder. -/
def imageAnalysisOrPlaceholder : Option String → String
  | none => "No image analysis available"
  | some s => if s = "" then "No image analysis available" else s

/-- The formatted system prompt built by `prompt.formatMessages`
(src/agent.ts lines 196-202): the template with `user_responses`,
`image_analysis`, `tool_names` and `time` substituted. -/
def formattedSystemPrompt (ur : String) (analysis : Option String)
    (toolNames time : String) : String :=
  promptSeg1 ++ ur ++ promptSeg2 ++ imageAnalysisOrPlaceholder analysis ++
    promptSeg3 ++ toolNames ++ promptSeg4 ++ time

/-- `tools.map((tool) => tool.name).join(", ")` (src/agent.ts line 199) for
the single registered tool. -/
def toolNamesJoined : String := "product_lookup"

/-- `callModel` (src/agent.ts lines 169-206): formats the system prompt from
the serialized user responses and the stored image analysis, prepends it to
the accumulated state messages and invokes the conversational model, here an
oracle `llm`. -/
def callModel (llm : List Message → AssistantReply) (ur : String)
    (analysis : Option String) (time : String)
    (state : List Message) : AssistantReply :=
  llm (Message.system (formattedSystemPrompt ur analysis toolNamesJoined time) :: state)

/-- The fixed human message passed to `app.invoke` (src/agent.ts line 220). -/
def seedMessage : Message :=
  Message.user "Please provide skincare recommendations based on my responses and image."

/-- Result of one `callAgent` call as observed by the Express caller. -/
inductive CallAgentResult where
  | ok (response : String)
  | parseError
  | visionError
  | toolError
  | recursionLimitExceeded
deriving Repr, DecidableEq

/-- Observable trace of one `callAgent` call: its result, how many times the
vision model was invoked, how many AGENT turns ran, and the history
committed to the checkpoint store at END (none when the request failed). -/
structure AgentTrace where
  result : CallAgentResult
  visionInvocations : Nat
  agentInvocations : Nat
  committed : Option (List Message)
deriving Repr, DecidableEq

/-- Mapping from a graph outcome to the caller-visible result: on END the
content of the last message of the final state is returned
(src/agent.ts line 227). -/
def execResultToCallResult : ExecResult → CallAgentResult
  | ExecResult.done h _ => CallAgentResult.ok (lastContent h)
  | ExecResult.recursionLimit _ => CallAgentResult.recursionLimitExceeded
  | ExecResult.toolError _ => CallAgentResult.toolError

/-- The graph phase of `callAgent` (src/agent.ts lines 208-227): run the
compiled workflow with the model node `callModel`, bound 15, starting from
the prior checkpointed history extended by the seed message, then return the
final assistant content.  `vcount` records how many vision invocations
happened before the graph ran. -/
def callAgentGraph (llm : List Message → AssistantReply) (ur : String)
    (analysis : Option String) (time : String)
    (execTool : ToolCall → Except Unit String)
    (prior : List Message) (vcount : Nat) : AgentTrace :=
  match runFrom (callModel llm ur analysis time) execTool 15 (prior ++ [seedMessage]) 0 with
  | ExecResult.done h n =>
    { result := CallAgentResult.ok (lastContent h), visionInvocations := vcount,
      agentInvocations := n, committed := some h }
  | ExecResult.recursionLimit n =>
    { result := CallAgentResult.recursionLimitExceeded, visionInvocations := vcount,
      agentInvocations := n, committed := none }
  | ExecResult.toolError n =>
    { result := CallAgentResult.toolError, visionInvocations := vcount,
      agentInvocations := n, committed := none }

/-- `callAgent` (src/agent.ts lines 19-228) as a sequential program over
oracles.  The first effect is `JSON.parse(query)` (line 31), whose outcome
arrives as `parsed` (the JSON runtime is external); on success the image
branch (lines 96-155) invokes the vision model exactly once when
`image_path` is non-null, with outcome `visionOutcome`; a vision failure
propagates before the graph is ever built, and otherwise the graph runs with
the stored analysis. -/
def callAgentRun (parsed : Except Unit String) (imagePath : Option String)
    (visionOutcome : Except Unit String)
    (llm : List Message → AssistantReply) (time : String)
    (execTool : ToolCall → Except Unit String)
    (prior : List Message) : AgentTrace :=
  match parsed with
  | Except.error _ =>
    { result := CallAgentResult.parseError, visionInvocations := 0,
      agentInvocations := 0, committed := none }
  | Except.ok ur =>
    match imagePath with
    | none => callAgentGraph llm ur none time execTool prior 0
    | some _ =>
      match visionOutcome with
      | Except.error _ =>
        { result := CallAgentResult.visionError, visionInvocations := 1,
          agentInvocations := 0, committed := none }
      | Except.ok analysis => callAgentGraph llm ur (some analysis) time execTool prior 1

/-- The HTTP responses the Express handlers can produce. -/
inductive HttpResponse where
  | okJson (body : String)
  | serverError (body : String)
deriving Repr, DecidableEq

/-- The try/catch of the Express chat handlers (src/unnamed/part_000 lines
63-74 and 82-88): a successful `callAgent` result is returned as JSON, any
thrown error becomes a 500 with the generic body. -/
def chatEndpoint (tr : AgentTrace) : HttpResponse :=
  match tr.result with
  | CallAgentResult.ok r => HttpResponse.okJson r
  | _ => HttpResponse.serverError "Internal server error"

/-- `Date.now().toString()` (src/unnamed/part_000 line 52): the new thread
identifier is the decimal representation of the current wall-clock time in
milliseconds, with no uniqueness check. -/
def newThreadId (nowMs : Nat) : String := Nat.repr nowMs

/-- Modelled from the spec: `get` of the Checkpoint Store (spec section 4.5);
the `MongoDBSaver` implementing it (src/agent.ts line 215) is library code
not in this repository.  Returns the stored message sequence, and the empty
sequence when the thread is absent — never an error for "not found". -/
def checkpointGet (store : List (String × List Message)) (tid : String) : List Message :=
  match store.lookup tid with
  | some h => h
  | none => []

/-- Modelled from the spec: `put` of the Checkpoint Store (spec section
4.5): overwrites the prior value for the thread wholesale. -/
def checkpointPut (store : List (String × List Message)) (tid : String)
    (h : List Message) : List (String × List Message) :=
  (tid, h) :: store

/-- The entry step of the Turn Executor (spec section 4.2, realized by
`app.invoke` with the checkpointer, src/agent.ts lines 215-225): the loaded
prior history extended by the new input message via the messages reducer. -/
def entryHistory (store : List (String × List Message)) (tid : String)
    (m : Message) : List Message :=
  messagesReducer (checkpointGet store tid) [m]

/-- Raw argument payload of the `product_lookup` tool as the model sends it:
a query and an optional `n`. -/
structure ProdLookupArgs where
  query : String
  n : Option Int
deriving Repr, DecidableEq

/-- The zod schema of `product_lookup` (src/agent.ts lines 73-80):
`query: z.string()`, `n: z.number().optional().default(10)` — validation
fills a missing `n` with 10. -/
def prodLookupSchemaApply (a : ProdLookupArgs) : String × Int :=
  (a.query, a.n.getD 10)

/-- The destructuring default of the handler (src/agent.ts line 52):
`({ query, n = 4 })` — 4 is used only when `n` is absent in the validated
arguments. -/
def handlerEffectiveN (n : Option Int) : Int := n.getD 4

/-- The value of `n` the handler actually runs with for a given raw payload:
schema validation first (which always produces an `n`), then the handler
default. -/
def invokerEffectiveN (raw : ProdLookupArgs) : Int :=
  handlerEffectiveN (some (prodLookupSchemaApply raw).2)

/-- Modelled from the spec: the Knowledge Retriever collaborator
`search(query, k) -> ranked list` (spec sections 4.4 and 6), invoked as
`vectorStore.similaritySearchWithScore(query, n)` (src/agent.ts line 67);
`rank` gives the full ranking for a query and the call returns its first `n`
entries. -/
def retrieverSearch (rank : String → List (String × Int)) (q : String)
    (n : Nat) : List (String × Int) :=
  (rank q).take n

/-- The `product_lookup` handler body (src/agent.ts lines 51-68) applied to
a validated payload: similarity search with the effective `n`. -/
def invokeProdLookup (rank : String → List (String × Int))
    (raw : ProdLookupArgs) : List (String × Int) :=
  retrieverSearch rank (prodLookupSchemaApply raw).1 (invokerEffectiveN raw).toNat

/-- Routing after appending an assistant reply: the appended message is the
last one, so the route depends only on its tool calls. -/
theorem shouldContinue_concat (hist : List Message) (c : String) (tcs : List ToolCall) :
    shouldContinue (hist ++ [Message.assistant c tcs]) =
      if tcs.length ≠ 0 then "tools" else "__end__" := by
  simp [shouldContinue, List.getLast?_concat]

/-- The executor performs at most `a + fuel` AGENT invocations. -/
theorem agentCalls_le (modelF : List Message → AssistantReply)
    (execTool : ToolCall → Except Unit String) :
    ∀ (fuel : Nat) (hist : List Message) (a : Nat),
      agentCallsOf (runFrom modelF execTool fuel hist a) ≤ a + fuel := by
  intro fuel
  induction fuel with
  | zero => intro hist a; simp [runFrom, agentCallsOf]
  | succ f ih =>
    intro hist a
    simp only [runFrom]
    split
    · split
      · simp only [agentCallsOf]; omega
      · exact le_trans (ih _ _) (by omega)
    · simp only [agentCallsOf]; omega

/-- If no tool handler ever fails, executing any tool-call list succeeds. -/
theorem execToolsE_ok (execTool : ToolCall → Except Unit String)
    (hok : ∀ tc, execTool tc ≠ Except.error ()) :
    ∀ tcs, ∃ ms, execToolsE execTool tcs = Except.ok ms := by
  intro tcs
  induction tcs with
  | nil => exact ⟨[], rfl⟩
  | cons tc rest ih =>
    obtain ⟨ms, hms⟩ := ih
    cases he : execTool tc with
    | error e => cases e; exact absurd he (hok tc)
    | ok s =>
      exact ⟨Message.toolResult tc.id s :: ms, by simp [execToolsE, he, hms]⟩

/-- If some tool call in the list fails, the whole TOOLS turn fails and no
partial tool-result list is produced. -/
theorem execToolsE_error_of_mem (execTool : ToolCall → Except Unit String) :
    ∀ tcs, (∃ tc ∈ tcs, execTool tc = Except.error ()) →
      execToolsE execTool tcs = Except.error () := by
  intro tcs
  induction tcs with
  | nil => rintro ⟨tc, hm, _⟩; cases hm
  | cons tc rest ih =>
    rintro ⟨tc0, hm, he⟩
    rcases List.mem_cons.mp hm with h0 | h0
    · subst h0; simp [execToolsE, he]
    · cases hcur : execTool tc with
      | error e => cases e; simp [execToolsE, hcur]
      | ok s => simp [execToolsE, hcur, ih ⟨tc0, h0, he⟩]

/-- With tool handlers that never fail, the executor never aborts with a
tool error. -/
theorem runFrom_ne_toolError (modelF : List Message → AssistantReply)
    (execTool : ToolCall → Except Unit String)
    (hok : ∀ tc, execTool tc ≠ Except.error ()) :
    ∀ (fuel : Nat) (hist : List Message) (a n : Nat),
      runFrom modelF execTool fuel hist a ≠ ExecResult.toolError n := by
  intro fuel
  induction fuel with
  | zero => intro hist a n h; simp [runFrom] at h
  | succ f ih =>
    intro hist a n h
    simp only [runFrom] at h
    split at h
    · obtain ⟨ms, hms⟩ := execToolsE_ok execTool hok (modelF hist).tool_calls
      rw [hms] at h
      exact ih _ _ _ h
    · simp at h

/-- A recursion-limit abort always happens with exactly `a + fuel` AGENT
invocations recorded. -/
theorem runFrom_limit_calls (modelF : List Message → AssistantReply)
    (execTool : ToolCall → Except Unit String) :
    ∀ (fuel : Nat) (hist : List Message) (a m : Nat),
      runFrom modelF execTool fuel hist a = ExecResult.recursionLimit m → m = a + fuel := by
  intro fuel
  induction fuel with
  | zero => intro hist a m h; simp [runFrom] at h; omega
  | succ f ih =>
    intro hist a m h
    simp only [runFrom] at h
    split at h
    · split at h
      · cases h
      · have := ih _ _ _ h; omega
    · cases h

/-- With a model that requests a tool call on every reply and tool handlers
that never fail, the executor always exhausts its fuel. -/
theorem runFrom_alwaysTool (modelF : List Message → AssistantReply)
    (execTool : ToolCall → Except Unit String)
    (htool : ∀ s, (modelF s).tool_calls ≠ [])
    (hok : ∀ tc, execTool tc ≠ Except.error ()) :
    ∀ (fuel : Nat) (hist : List Message) (a : Nat),
      runFrom modelF execTool fuel hist a = ExecResult.recursionLimit (a + fuel) := by
  intro fuel
  induction fuel with
  | zero => intro hist a; simp [runFrom]
  | succ f ih =>
    intro hist a
    obtain ⟨ms, hms⟩ := execToolsE_ok execTool hok (modelF hist).tool_calls
    have hcond : shouldContinue
        (hist ++ [Message.assistant (modelF hist).content (modelF hist).tool_calls]) = "tools" := by
      rw [shouldContinue_concat]
      simp [htool hist]
    simp only [runFrom, hcond, if_pos, hms]
    rw [ih]
    congr 1
    omega

/-- A run that reaches END only ever extends the history it started from. -/
theorem runFrom_done_extends (modelF : List Message → AssistantReply)
    (execTool : ToolCall → Except Unit String) :
    ∀ (fuel : Nat) (hist : List Message) (a : Nat) (h : List Message) (n : Nat),
      runFrom modelF execTool fuel hist a = ExecResult.done h n → ∃ t, h = hist ++ t := by
  intro fuel
  induction fuel with
  | zero => intro hist a h n he; simp [runFrom] at he
  | succ f ih =>
    intro hist a h n he
    simp only [runFrom] at he
    split at he
    · split at he
      · cases he
      · rename_i ms hms
        obtain ⟨t, ht⟩ := ih _ _ _ _ he
        refine ⟨[Message.assistant (modelF hist).content (modelF hist).tool_calls] ++ ms ++ t, ?_⟩
        rw [ht]
        simp [List.append_assoc]
    · cases he
      exact ⟨[Message.assistant (modelF hist).content (modelF hist).tool_calls], rfl⟩

/-- A concrete model oracle that always requests one product_lookup call. -/
def llmAlwaysTool : List Message → AssistantReply :=
  fun _ => { content := "searching",
             tool_calls := [{ id := "call1", name := "product_lookup", args := "acne serum" }] }

/-- A concrete model oracle that always answers directly, with no tool
calls. -/
def llmNoTools : List Message → AssistantReply :=
  fun _ => { content := "hello", tool_calls := [] }

/-- A concrete tool oracle that always succeeds. -/
def execToolOk : ToolCall → Except Unit String := fun _ => Except.ok "results"

/-- A concrete tool oracle that always fails. -/
def execToolFail : ToolCall → Except Unit String := fun _ => Except.error ()

/-- C1: every execution of the Turn Executor performs at most 15 AGENT
invocations (the `recursionLimit: 15` of `app.invoke`); when no tool fails
it reaches END or aborts with RecursionLimitExceeded within that bound; and
with a model that requests a tool call on every reply the abort is raised on
exactly the 15th AGENT attempt, not before and not after. -/
theorem recursion_bound_c1 :
    (∀ (modelF : List Message → AssistantReply) (execTool : ToolCall → Except Unit String)
       (hist : List Message), agentCallsOf (runFrom modelF execTool 15 hist 0) ≤ 15) ∧
    (∀ (modelF : List Message → AssistantReply) (execTool : ToolCall → Except Unit String)
       (hist : List Message), (∀ tc, execTool tc ≠ Except.error ()) →
       (∃ h n, runFrom modelF execTool 15 hist 0 = ExecResult.done h n) ∨
       runFrom modelF execTool 15 hist 0 = ExecResult.recursionLimit 15) ∧
    (∀ (modelF : List Message → AssistantReply) (execTool : ToolCall → Except Unit String)
       (hist : List Message), (∀ s, (modelF s).tool_calls ≠ []) →
       (∀ tc, execTool tc ≠ Except.error ()) →
       runFrom modelF execTool 15 hist 0 = ExecResult.recursionLimit 15 ∧
       agentCallsOf (runFrom modelF execTool 15 hist 0) = 15) := by
  refine ⟨?_, ?_, ?_⟩
  · intro modelF execTool hist
    simpa using agentCalls_le modelF execTool 15 hist 0
  · intro modelF execTool hist hok
    cases hres : runFrom modelF execTool 15 hist 0 with
    | done h n => exact Or.inl ⟨h, n, rfl⟩
    | recursionLimit m =>
      have hm : m = 15 := by
        simpa using runFrom_limit_calls modelF execTool 15 hist 0 m hres
      subst hm
      exact Or.inr rfl
    | toolError n =>
      exact absurd hres (runFrom_ne_toolError modelF execTool hok 15 hist 0 n)
  · intro modelF execTool hist htool hok
    have h := runFrom_alwaysTool modelF execTool htool hok 15 hist 0
    refine ⟨by simpa using h, ?_⟩
    rw [show (0 : Nat) + 15 = 15 from rfl] at h
    rw [h]
    rfl

/-- Witness for C1: with a model that always calls the tool and a tool that
always succeeds, the bound is exhausted after exactly 15 AGENT attempts. -/
theorem recursion_bound_c1_witness :
    runFrom llmAlwaysTool execToolOk 15 [] 0 = ExecResult.recursionLimit 15 ∧
    agentCallsOf (runFrom llmAlwaysTool execToolOk 15 [] 0) = 15 :=
  recursion_bound_c1.2.2 llmAlwaysTool execToolOk []
    (fun _ => by simp [llmAlwaysTool]) (fun _ => by simp [execToolOk])

/-- C2 counterexample: the payload `{query: "acne serum"}` with `n` omitted
does not make the handler run with n = 4 — schema validation fills the
declared zod default first. -/
theorem prodlookup_default_counterexample_c2 :
    ¬ (invokerEffectiveN { query := "acne serum", n := none } = 4) := by decide

/-- C2 amended: for every product_lookup payload omitting `n`, schema
validation fills the declared zod default 10 (src/agent.ts line 78), the
handler therefore runs with n = 10 — its destructuring default 4 is
unreachable — and the retriever is asked for at most 10 ranked entries. -/
theorem prodlookup_default_c2 (raw : ProdLookupArgs)
    (h : raw.n = none) (rank : String → List (String × Int)) :
    invokerEffectiveN raw = 10 ∧
    (invokeProdLookup rank raw).length ≤ 10 := by
  have hn : invokerEffectiveN raw = 10 := by
    simp [invokerEffectiveN, handlerEffectiveN, prodLookupSchemaApply, h]
  refine ⟨hn, ?_⟩
  simp only [invokeProdLookup, retrieverSearch, hn, List.length_take]
  omega

/-- Witness for C2: the amended default applied at the concrete payload of
the spec scenario. -/
theorem prodlookup_default_c2_witness :
    ({ query := "acne serum", n := none } : ProdLookupArgs).n = none ∧
    invokerEffectiveN { query := "acne serum", n := none } = 10 :=
  ⟨rfl, (prodlookup_default_c2 { query := "acne serum", n := none } rfl (fun _ => [])).1⟩

/-- C6: when the AGENT reply contains no ToolCallRequests, the routing
function sends the run directly to END, the executor stops with the reply
appended, and the response returned to the caller (`lastContent`) equals
that final assistant reply's text verbatim. -/
theorem immediate_answer_c6 (modelF : List Message → AssistantReply)
    (execTool : ToolCall → Except Unit String) (fuel : Nat)
    (hist : List Message) (a : Nat)
    (h : (modelF hist).tool_calls = []) :
    shouldContinue (hist ++ [Message.assistant (modelF hist).content (modelF hist).tool_calls]) =
      "__end__" ∧
    runFrom modelF execTool (fuel + 1) hist a =
      ExecResult.done (hist ++ [Message.assistant (modelF hist).content (modelF hist).tool_calls])
        (a + 1) ∧
    lastContent (hist ++ [Message.assistant (modelF hist).content (modelF hist).tool_calls]) =
      (modelF hist).content := by
  have hroute : shouldContinue
      (hist ++ [Message.assistant (modelF hist).content (modelF hist).tool_calls]) = "__end__" := by
    rw [shouldContinue_concat]
    simp [h]
  refine ⟨hroute, ?_, ?_⟩
  · simp only [runFrom, hroute]
    rw [if_neg (by decide)]
  · simp [lastContent, List.getLast?_concat, Message.content]

/-- Witness for C6: a concrete no-tool-call reply ends the run at once and
its text is returned. -/
theorem immediate_answer_c6_witness :
    (llmNoTools []).tool_calls = [] ∧
    runFrom llmNoTools execToolOk 1 [] 0 =
      ExecResult.done ([] ++ [Message.assistant (llmNoTools []).content (llmNoTools []).tool_calls])
        1 :=
  ⟨rfl, (immediate_answer_c6 llmNoTools execToolOk 0 [] 0 rfl).2.1⟩

/-- C7: message accumulation is a pure append — the messages reducer
concatenates at the end, the sequence before a turn is an unchanged initial
segment of the sequence after it, and every completed run's final history
extends the history it started from. -/
theorem append_only_history_c7 :
    (∀ x y : List Message, messagesReducer x y = x ++ y) ∧
    (∀ x y : List Message, ∃ t, messagesReducer x y = x ++ t ∧
       List.take x.length (messagesReducer x y) = x) ∧
    (∀ (modelF : List Message → AssistantReply) (execTool : ToolCall → Except Unit String)
       (fuel : Nat) (hist : List Message) (a : Nat) (h : List Message) (n : Nat),
       runFrom modelF execTool fuel hist a = ExecResult.done h n → ∃ t, h = hist ++ t) := by
  refine ⟨fun x y => rfl, ?_, ?_⟩
  · intro x y
    exact ⟨y, rfl, List.take_left x y⟩
  · intro modelF execTool fuel hist a h n
    exact runFrom_done_extends modelF execTool fuel hist a h n

/-- Witness for C7: a concrete completed run whose final history extends the
starting history. -/
theorem append_only_history_c7_witness :
    runFrom llmNoTools execToolOk 1 [seedMessage] 0 =
      ExecResult.done ([seedMessage] ++ [Message.assistant "hello" []]) 1 ∧
    ∃ t, [seedMessage] ++ [Message.assistant "hello" []] = [seedMessage] ++ t :=
  ⟨by decide, append_only_history_c7.2.2 llmNoTools execToolOk 1 [seedMessage] 0
    ([seedMessage] ++ [Message.assistant "hello" []]) 1 (by decide)⟩

/-- The graph phase reports exactly the vision-invocation count it was given,
whatever the run outcome. -/
theorem callAgentGraph_visionInvocations (llm : List Message → AssistantReply)
    (ur : String) (analysis : Option String) (time : String)
    (execTool : ToolCall → Except Unit String) (prior : List Message) (vcount : Nat) :
    (callAgentGraph llm ur analysis time execTool prior vcount).visionInvocations = vcount := by
  unfold callAgentGraph
  cases runFrom (callModel llm ur analysis time) execTool 15 (prior ++ [seedMessage]) 0 <;> rfl

/-- A graph phase that ends in a tool error commits nothing. -/
theorem callAgentGraph_toolError_committed (llm : List Message → AssistantReply)
    (ur : String) (analysis : Option String) (time : String)
    (execTool : ToolCall → Except Unit String) (prior : List Message) (vcount : Nat) :
    (callAgentGraph llm ur analysis time execTool prior vcount).result = CallAgentResult.toolError →
    (callAgentGraph llm ur analysis time execTool prior vcount).committed = none := by
  unfold callAgentGraph
  cases runFrom (callModel llm ur analysis time) execTool 15 (prior ++ [seedMessage]) 0 <;> simp

/-- C3: a ToolCallRequest failing schema validation yields no tool result
but a fatal error; a failing tool handler aborts the whole TOOLS turn with
no partial tool-result list, so the model is never shown the failure as a
recoverable tool-result; and a request aborted by a tool failure reaches the
caller as the generic failure with nothing committed. -/
theorem tool_failure_fatal_c3 :
    (∀ (validate : String → Bool) (handler : String → Except Unit String) (p : String),
       validate p = false → invokeToolChecked validate handler p = Except.error ()) ∧
    (∀ (execTool : ToolCall → Except Unit String) (tcs : List ToolCall),
       (∃ tc ∈ tcs, execTool tc = Except.error ()) →
       execToolsE execTool tcs = Except.error ()) ∧
    (∀ (parsed : Except Unit String) (imagePath : Option String)
       (visionOutcome : Except Unit String) (llm : List Message → AssistantReply)
       (time : String) (execTool : ToolCall → Except Unit String) (prior : List Message),
       (callAgentRun parsed imagePath visionOutcome llm time execTool prior).result =
         CallAgentResult.toolError →
       chatEndpoint (callAgentRun parsed imagePath visionOutcome llm time execTool prior) =
         HttpResponse.serverError "Internal server error" ∧
       (callAgentRun parsed imagePath visionOutcome llm time execTool prior).committed = none) := by
  refine ⟨?_, ?_, ?_⟩
  · intro validate handler p hv
    simp [invokeToolChecked, hv]
  · intro execTool tcs h
    exact execToolsE_error_of_mem execTool tcs h
  · intro parsed imagePath visionOutcome llm time execTool prior hres
    have hcommitted :
        (callAgentRun parsed imagePath visionOutcome llm time execTool prior).committed = none := by
      cases parsed with
      | error e => simp [callAgentRun] at hres
      | ok ur =>
        cases imagePath with
        | none =>
          simp only [callAgentRun] at hres ⊢
          exact callAgentGraph_toolError_committed llm ur none time execTool prior 0 hres
        | some p =>
          cases visionOutcome with
          | error e => simp [callAgentRun] at hres
          | ok analysis =>
            simp only [callAgentRun] at hres ⊢
            exact callAgentGraph_toolError_committed llm ur (some analysis) time execTool prior 1 hres
    exact ⟨by simp [chatEndpoint, hres], hcommitted⟩

/-- Witness for C3: a failed validation, a failing tool call inside a TOOLS
turn, and a whole request aborted by a failing tool, at concrete inputs. -/
theorem tool_failure_fatal_c3_witness :
    invokeToolChecked (fun _ => false) (fun _ => Except.ok "ok") "bad" = Except.error () ∧
    execToolsE execToolFail [{ id := "call1", name := "product_lookup", args := "acne serum" }] =
      Except.error () ∧
    chatEndpoint (callAgentRun (Except.ok "profile") none (Except.ok "") llmAlwaysTool "t"
        execToolFail []) = HttpResponse.serverError "Internal server error" :=
  ⟨tool_failure_fatal_c3.1 (fun _ => false) (fun _ => Except.ok "ok") "bad" rfl,
   tool_failure_fatal_c3.2.1 execToolFail
     [{ id := "call1", name := "product_lookup", args := "acne serum" }]
     ⟨{ id := "call1", name := "product_lookup", args := "acne serum" }, by simp, rfl⟩,
   (tool_failure_fatal_c3.2.2 (Except.ok "profile") none (Except.ok "") llmAlwaysTool "t"
     execToolFail [] (by decide)).1⟩

/-- C4: continuing a conversation whose threadId has no Checkpoint in the
store silently starts fresh: the loaded history is empty (no "not found"
error), the entry history contains only the new message, and the Turn
Executor proceeds exactly as it would from an empty history. -/
theorem unknown_thread_fresh_c4 (store : List (String × List Message))
    (tid : String) (m : Message) (h : store.lookup tid = none) :
    checkpointGet store tid = [] ∧
    entryHistory store tid m = [m] ∧
    (∀ (parsed : Except Unit String) (imagePath : Option String)
       (visionOutcome : Except Unit String) (llm : List Message → AssistantReply)
       (time : String) (execTool : ToolCall → Except Unit String),
       callAgentRun parsed imagePath visionOutcome llm time execTool (checkpointGet store tid) =
       callAgentRun parsed imagePath visionOutcome llm time execTool []) := by
  have hget : checkpointGet store tid = [] := by simp [checkpointGet, h]
  refine ⟨hget, by simp [entryHistory, messagesReducer, hget], ?_⟩
  intro parsed imagePath visionOutcome llm time execTool
  rw [hget]

/-- Witness for C4: a concrete store without the requested thread starts the
continuation from just the new message. -/
theorem unknown_thread_fresh_c4_witness :
    ([("123", [seedMessage])] : List (String × List Message)).lookup "456" = none ∧
    entryHistory [("123", [seedMessage])] "456" seedMessage = [seedMessage] :=
  ⟨by decide, (unknown_thread_fresh_c4 [("123", [seedMessage])] "456" seedMessage (by decide)).2.1⟩

/-- C5: a new-conversation request carrying an image invokes the vision
model exactly once whatever that invocation returns, and when the single
invocation fails the whole request fails before any AGENT turn has run, with
nothing committed, and the caller receives the generic failure. -/
theorem vision_once_fatal_c5 (ur p : String) (visionOutcome : Except Unit String)
    (llm : List Message → AssistantReply) (time : String)
    (execTool : ToolCall → Except Unit String) (prior : List Message) :
    (callAgentRun (Except.ok ur) (some p) visionOutcome llm time execTool prior).visionInvocations
      = 1 ∧
    callAgentRun (Except.ok ur) (some p) (Except.error ()) llm time execTool prior =
      { result := CallAgentResult.visionError, visionInvocations := 1,
        agentInvocations := 0, committed := none } ∧
    chatEndpoint (callAgentRun (Except.ok ur) (some p) (Except.error ()) llm time execTool prior) =
      HttpResponse.serverError "Internal server error" := by
  refine ⟨?_, rfl, rfl⟩
  cases visionOutcome with
  | error e => cases e; rfl
  | ok analysis =>
    simp only [callAgentRun]
    exact callAgentGraph_visionInvocations llm ur (some analysis) time execTool prior 1

/-- C8: the system prompt of every AGENT turn embeds the serialized user
profile, together with the image-analysis text when a non-empty analysis is
present and the literal placeholder "No image analysis available" when none
is; and the analysis is referenced rather than re-derived: a request
performs at most one vision invocation no matter how many AGENT turns run. -/
theorem seed_context_c8 (ur s tn time : String) (hs : s ≠ "") :
    (∀ analysis : Option String, ∃ suf,
       formattedSystemPrompt ur analysis tn time = promptSeg1 ++ (ur ++ suf)) ∧
    (∃ pre suf, formattedSystemPrompt ur none tn time =
       pre ++ ("No image analysis available" ++ suf)) ∧
    (∃ pre suf, formattedSystemPrompt ur (some s) tn time = pre ++ (s ++ suf)) ∧
    (∀ (parsed : Except Unit String) (imagePath : Option String)
       (visionOutcome : Except Unit String) (llm : List Message → AssistantReply)
       (execTool : ToolCall → Except Unit String) (prior : List Message),
       (callAgentRun parsed imagePath visionOutcome llm time execTool prior).visionInvocations
         ≤ 1) := by
  refine ⟨?_, ?_, ?_, ?_⟩
  · intro analysis
    refine ⟨promptSeg2 ++ imageAnalysisOrPlaceholder analysis ++ promptSeg3 ++ tn ++
      promptSeg4 ++ time, ?_⟩
    simp [formattedSystemPrompt, String.append_assoc]
  · refine ⟨promptSeg1 ++ ur ++ promptSeg2, promptSeg3 ++ tn ++ promptSeg4 ++ time, ?_⟩
    simp [formattedSystemPrompt, imageAnalysisOrPlaceholder, String.append_assoc]
  · refine ⟨promptSeg1 ++ ur ++ promptSeg2, promptSeg3 ++ tn ++ promptSeg4 ++ time, ?_⟩
    simp [formattedSystemPrompt, imageAnalysisOrPlaceholder, hs, String.append_assoc]
  · intro parsed imagePath visionOutcome llm execTool prior
    cases parsed with
    | error e => simp [callAgentRun]
    | ok u =>
      cases imagePath with
      | none => simp [callAgentRun, callAgentGraph_visionInvocations]
      | some p =>
        cases visionOutcome with
        | error e => simp [callAgentRun]
        | ok analysis => simp [callAgentRun, callAgentGraph_visionInvocations]

/-- Witness for C8: the prompt built for a concrete profile and a concrete
non-empty analysis embeds that analysis text. -/
theorem seed_context_c8_witness :
    ("oily skin analysis" : String) ≠ "" ∧
    (∃ pre suf, formattedSystemPrompt "profile" (some "oily skin analysis") "product_lookup"
      "now" = pre ++ ("oily skin analysis" ++ suf)) :=
  ⟨by decide,
   (seed_context_c8 "profile" "oily skin analysis" "product_lookup" "now" (by decide)).2.2.1⟩

/-- C9: a StartConversation request derives its thread identifier as the
decimal string of the wall-clock millisecond timestamp with no uniqueness
check, so two requests in the same millisecond receive the same threadId,
and the second then loads and extends the history the first committed — the
two conversations silently merge into one thread. -/
theorem thread_id_collision_c9 (t1 t2 : Nat) (h : t1 = t2) :
    newThreadId t1 = Nat.repr t1 ∧
    newThreadId t1 = newThreadId t2 ∧
    (∀ (store : List (String × List Message)) (hist : List Message) (m : Message),
       entryHistory (checkpointPut store (newThreadId t1) hist) (newThreadId t2) m =
         hist ++ [m]) := by
  subst h
  refine ⟨rfl, rfl, ?_⟩
  intro store hist m
  simp [entryHistory, checkpointGet, checkpointPut, messagesReducer, List.lookup]

/-- Witness for C9: two requests at the same concrete millisecond collide on
the same identifier, and the second request entry extends the first request
committed history. -/
theorem thread_id_collision_c9_witness :
    newThreadId 1736899200000 = Nat.repr 1736899200000 ∧
    newThreadId 1736899200000 = newThreadId 1736899200000 ∧
    entryHistory (checkpointPut [] (newThreadId 1736899200000) [seedMessage])
      (newThreadId 1736899200000) seedMessage = [seedMessage] ++ [seedMessage] :=
  ⟨(thread_id_collision_c9 1736899200000 1736899200000 rfl).1,
   (thread_id_collision_c9 1736899200000 1736899200000 rfl).2.1,
   (thread_id_collision_c9 1736899200000 1736899200000 rfl).2.2 [] [seedMessage] seedMessage⟩

/-- C10: a request whose message string is not valid JSON fails at the
initial JSON.parse: no vision invocation, no AGENT turn and no history
commit happen, and the caller receives the generic failure — only messages
that parse as JSON ever reach the Turn Executor. -/
theorem invalid_json_fatal_c10 (imagePath : Option String)
    (visionOutcome : Except Unit String) (llm : List Message → AssistantReply)
    (time : String) (execTool : ToolCall → Except Unit String) (prior : List Message) :
    callAgentRun (Except.error ()) imagePath visionOutcome llm time execTool prior =
      { result := CallAgentResult.parseError, visionInvocations := 0,
        agentInvocations := 0, committed := none } ∧
    chatEndpoint (callAgentRun (Except.error ()) imagePath visionOutcome llm time execTool
      prior) = HttpResponse.serverError "Internal server error" :=
  ⟨rfl, rfl⟩
